import Mathlib

/-!
Verification of the bulletin-generator lyric-to-layout engine.

The repository holds four revisions of the same script (main.py, main2.py,
main3.py, main4.py).  The definitions below are shallow embeddings of the
core functions of those revisions: the line extractors, the slide-side
clearing, the segment classification inside `add_song_content`, and the
order-of-service hymn-title substitution.  Lengths are EMU integers
(pptx `Inches(x)` = `x * 914400`); Python tri-state booleans
(`True`/`False`/`None`) are `Option Bool`; a Python function that can raise
is `Except Unit`.

Python string operations are implemented over character lists so that every
definition evaluates by kernel reduction.  `Char.toLower` is ASCII-only,
which coincides with Python `str.lower()` on the ASCII texts these scripts
handle.
-/

set_option autoImplicit false

/-! ### Python string operations -/

/-- Python `str.strip()`: drop leading and trailing whitespace. -/
def pyStrip (s : String) : String :=
  String.mk (((s.toList.dropWhile Char.isWhitespace).reverse.dropWhile
    Char.isWhitespace).reverse)

/-- Python `str.rstrip()`: drop trailing whitespace. -/
def pyRstrip (s : String) : String :=
  String.mk ((s.toList.reverse.dropWhile Char.isWhitespace).reverse)

/-- Python `str.lower()` (ASCII). -/
def pyLower (s : String) : String :=
  String.mk (s.toList.map Char.toLower)

/-- Python `len(s)`: number of code points. -/
def pyLen (s : String) : Nat :=
  s.toList.length

/-- Whether the first list is a prefix of the second (character lists). -/
def charsStartWith : List Char → List Char → Bool
  | [], _ => true
  | _ :: _, [] => false
  | a :: as, b :: bs => a = b && charsStartWith as bs

/-- Python `s.startswith(pre)`. -/
def pyStartsWith (s pre : String) : Bool :=
  charsStartWith pre.toList s.toList

/-- Python `s.endswith(suffix)`. -/
def pyEndsWith (s suffix : String) : Bool :=
  charsStartWith suffix.toList.reverse s.toList.reverse

/-- Python `c in s` for a single character. -/
def pyHasChar (s : String) (c : Char) : Bool :=
  s.toList.any (fun d => d = c)

/-- Split a character list at every character satisfying `p`
(each separator ends a piece; pieces may be empty). -/
def splitCharsAux (p : Char → Bool) : List Char → List Char → List (List Char)
  | [], acc => [acc.reverse]
  | c :: cs, acc =>
    if p c then acc.reverse :: splitCharsAux p cs []
    else splitCharsAux p cs (c :: acc)

/-- Split a string at every character satisfying `p`. -/
def pySplitPred (p : Char → Bool) (s : String) : List String :=
  (splitCharsAux p s.toList []).map String.mk

/-- Python `text.split()`: whitespace-separated words, empties dropped. -/
def pyWords (s : String) : List String :=
  (pySplitPred Char.isWhitespace s).filter (fun w => ¬ w = "")

/-- Python `str.splitlines` restricted to `'\n'`/`'\r'`; the callers drop
every empty piece, so splitting at each of the two characters separately is
observationally the same as Python's treatment of `"\r\n"`. -/
def pySplitlines (s : String) : List String :=
  pySplitPred (fun c => c = '\n' || c = '\r') s

/-- Concatenation of a list of strings (Python `"".join`). -/
def strConcat (l : List String) : String :=
  String.mk (l.flatMap String.toList)

/-- `any(char.isdigit() for char in s)`. -/
def hasDigit (s : String) : Bool :=
  s.toList.any Char.isDigit

/-- `',' in s or '.' in s`. -/
def hasCommaOrDot (s : String) : Bool :=
  pyHasChar s ',' || pyHasChar s '.'

/-! ### Regex fragments used by the scripts -/

/-- Regex-style search: some suffix of the character list satisfies `p`
(models `re.search` of a pattern anchored at the suffix head). -/
def anySuffix (p : List Char → Bool) : List Char → Bool
  | [] => p []
  | c :: cs => p (c :: cs) || anySuffix p cs

/-- `\w` (ASCII): letter, digit or underscore. -/
def isWordChar (c : Char) : Bool :=
  c.isAlphanum || c = '_'

/-- After the mandatory first whitespace of `\s+\w`: skip further
whitespace, then require a word character. -/
def wsThenWord : List Char → Bool
  | [] => false
  | c :: cs => if c.isWhitespace then wsThenWord cs else isWordChar c

/-- `by\s+\w+` anchored at the head of the character list. -/
def byPatAt : List Char → Bool
  | 'b' :: 'y' :: c :: cs => c.isWhitespace && wsThenWord cs
  | _ => false

/-- `[0-9]{4}` anchored at the head of the character list. -/
def fourDigitsAt : List Char → Bool
  | a :: b :: c :: d :: _ => a.isDigit && b.isDigit && c.isDigit && d.isDigit
  | _ => false

/-- One alternative of the attribution pattern anchored at the head
(the input has already been lower-cased). -/
def attribAt (l : List Char) : Bool :=
  charsStartWith "©".toList l ||
  charsStartWith "ccli".toList l ||
  charsStartWith "public domain".toList l ||
  charsStartWith "words and music".toList l ||
  fourDigitsAt l ||
  charsStartWith "translated".toList l ||
  byPatAt l

/-- main3.py line 214:
`re.search(r'(©|CCLI|Public Domain|Words and Music|[0-9]{4}|Translated|by\s+\w+)', text, re.IGNORECASE)`. -/
def isAttrib (s : String) : Bool :=
  anySuffix attribAt (pyLower s).toList

/-- `re.match(pre + r'\d')`: `s` starts with `pre` and the following
character is a digit (used for `Hymnal #\d+` / `Verse \d+`, where one
digit after the literal decides the match). -/
def startsThenDigit (pre : String) (s : String) : Bool :=
  pyStartsWith s pre &&
    (match s.toList.drop pre.toList.length with
     | c :: _ => c.isDigit
     | [] => false)

/-! ### Source data model -/

/-- An extracted lyric line: text paired with a style payload (the italic
flag; `Option Bool` for the revisions that keep Python's tri-state value,
`Bool` for the revisions that coerce it with `is True`). -/
abbrev Line (α : Type) := String × α

/-- A run of a source-document paragraph: its text and the python-docx
tri-state `run.italic` attribute. -/
structure DocRun where
  text : String
  italic : Option Bool
deriving DecidableEq, Repr

/-- A source-document paragraph: its ordered runs. -/
abbrev Para := List DocRun

/-- A source document: its ordered paragraphs. -/
abbrev Doc := List Para

/-- python-docx `paragraph.text`: concatenation of the run texts. -/
def paraText (p : Para) : String :=
  strConcat (p.map DocRun.text)

/-- Python `a or b` on tri-state boolean values: `a` if truthy (`True`),
otherwise `b`. -/
def pyOr (a b : Option Bool) : Option Bool :=
  if a = some true then a else b

namespace MainPy

/-- main.py lines 78-80: case-SENSITIVE, prefix-anchored marker test
`re.match(r'Hymnal #\d+') or re.match(r'Verse \d+') or re.match(r'Chorus')`. -/
def isMarker (s : String) : Bool :=
  startsThenDigit "Hymnal #" s || startsThenDigit "Verse " s || pyStartsWith s "Chorus"

/-- main.py lines 68-74: accumulate the non-empty run texts of a paragraph
and fold the tri-state italic flags with Python `or`
(`current_italic = current_italic or run.italic`, starting from `False`). -/
def paraState (rs : Para) : List String × Option Bool :=
  rs.foldl
    (fun acc r => if r.text = "" then acc else (acc.1 ++ [r.text], pyOr acc.2 r.italic))
    ([], some false)

/-- main.py lines 75-81: the lines one paragraph contributes.  The marker
test runs on the right-trimmed concatenation; the emitted text is fully
trimmed. -/
def paraLines (p : Para) : List (Line (Option Bool)) :=
  let st := paraState p
  if st.1 = [] then []
  else
    let fullText := pyRstrip (strConcat st.1)
    if pyStrip fullText = "" then []
    else if isMarker fullText then []
    else [(pyStrip fullText, st.2)]

/-- main.py `extract_text_and_style` (lines 63-85): `none` models a document
that cannot be opened or parsed — the `except` branch returns `[]`, so the
function is total and never propagates a fault. -/
def extract_text_and_style (d : Option Doc) : List (Line (Option Bool)) :=
  match d with
  | none => []
  | some ps => ps.flatMap paraLines

end MainPy

namespace Main3

/-- main3.py line 106 (same in main4.py line 166):
`re.match(r'^(Hymnal #\d+|Verse \d+|Chorus)$', raw_para.strip(), re.IGNORECASE)`
— a full, case-insensitive match on the trimmed paragraph text. -/
def isMarker (s : String) : Bool :=
  let t := (pyLower s).toList
  (charsStartWith "hymnal #".toList t && ¬ t.drop 8 = [] && (t.drop 8).all Char.isDigit) ||
  (charsStartWith "verse ".toList t && ¬ t.drop 6 = [] && (t.drop 6).all Char.isDigit) ||
  t = "chorus".toList

/-- main3.py lines 109-121: the lines one run contributes
(`is_italic = run.italic is True`; each embedded line individually trimmed,
empty sub-lines dropped). -/
def runLines (r : DocRun) : List (Line Bool) :=
  let rt := pyStrip r.text
  if rt = "" then []
  else
    (pySplitlines rt).filterMap
      (fun ln => if pyStrip ln = "" then none else some (pyStrip ln, r.italic = some true))

/-- main3.py lines 99-121: the lines one paragraph contributes — a blank
paragraph is preserved as `("", False)`, a marker paragraph is discarded. -/
def paraLines (p : Para) : List (Line Bool) :=
  let raw := pyStrip (paraText p)
  if raw = "" then [("", false)]
  else if isMarker raw then []
  else p.flatMap runLines

/-- main3.py `extract_text_and_style` (lines 94-127, same in main4.py
lines 157-181): `none` models an unreadable document (the `except` branch). -/
def extract_text_and_style (d : Option Doc) : List (Line Bool) :=
  match d with
  | none => []
  | some ps => ps.flatMap paraLines

end Main3

/-! ### Segment classification (shared shapes) -/

/-- `lines = lines[1:] if len(lines) > 1 and lines[0][0].strip().lower() ==
title.strip().lower() else lines` — main.py line 123, main2.py line 121,
main3.py line 205, main4.py line 226. -/
def dropDupTitle {α : Type} (title : String) (lines : List (Line α)) : List (Line α) :=
  match lines with
  | [] => []
  | l :: rest =>
    if (l :: rest).length > 1 ∧ pyLower (pyStrip l.1) = pyLower (pyStrip title)
    then rest else l :: rest

/-- A classified display segment: a verse block carrying its lines, or a
blank spacing paragraph. -/
inductive Seg (α : Type) where
  | body (v : List (Line α))
  | blank
deriving DecidableEq, Repr

/-- All lines carried by the body segments, in order. -/
def flattenBody {α : Type} (segs : List (Seg α)) : List (Line α) :=
  segs.flatMap (fun s => match s with | .body v => v | .blank => [])

/-- A line is non-blank when its trimmed text is non-empty. -/
def nonblank {α : Type} (l : Line α) : Bool :=
  ¬ pyStrip l.1 = ""

namespace MainPy

/-- main.py lines 125-131: pop the single trailing line as the
footer/attribution line when its trimmed text contains a digit and a comma
or period. -/
def footerPop {α : Type} (lfc : List (Line α)) : Option (Line α) × List (Line α) :=
  match lfc.getLast? with
  | none => (none, lfc)
  | some l =>
    let t := pyStrip l.1
    if hasDigit t && hasCommaOrDot t then (some l, lfc.dropLast) else (none, lfc)

/-- `(text.strip().endswith(('.', '!', '?')) and len(text.strip()) > 0)`
— main.py line 139. -/
def endsTermPy (t : String) : Bool :=
  (pyEndsWith (pyStrip t) "." || pyEndsWith (pyStrip t) "!" || pyEndsWith (pyStrip t) "?")
    && decide (0 < pyLen (pyStrip t))

/-- `(len(text.split()) <= 2 and not text.strip().endswith(':') and not
text.strip().endswith(';'))` — main.py lines 140 and 161. -/
def shortPy (t : String) : Bool :=
  decide ((pyWords t).length ≤ 2)
    && !(pyEndsWith (pyStrip t) ":") && !(pyEndsWith (pyStrip t) ";")

/-- `(text.strip().endswith('!') and len(text.strip()) > 0)` — main.py
line 160. -/
def bangPy (t : String) : Bool :=
  pyEndsWith (pyStrip t) "!" && decide (0 < pyLen (pyStrip t))

/-- main.py lines 133-166: the verse loop.  `cur` is `current_verse`;
`hasFooter` is the truthiness of `last_line_info`.  A paragraph is emitted
at each break; a spacing paragraph follows when the terminating line ends in
`'!'` or is a short non-colon/semicolon line, unless this is the last line
and a footer exists. -/
def segLoop {α : Type} : List (Line α) → List (Line α) → Bool → List (Seg α)
  | [], _, _ => []
  | l :: rest, cur, hasFooter =>
    let cur2 := cur ++ [l]
    let brk : Bool := if rest.isEmpty then true else endsTermPy l.1 || shortPy l.1
    if brk then
      Seg.body cur2 ::
        (if (bangPy l.1 || shortPy l.1) && (!rest.isEmpty || !hasFooter)
         then Seg.blank :: segLoop rest [] hasFooter
         else segLoop rest [] hasFooter)
    else
      segLoop rest cur2 hasFooter

end MainPy

/-! Claim-side segmentation, written from the specification's wording:
a verse boundary is declared after a line exactly when it is the last body
line, or it ends in `.`, `!` or `?`, or it has at most two words and does
not end in `:` or `;`; after a segment whose terminating line ends in `!`
or is such a short line, one blank separator is additionally emitted,
except when that segment is the final one and a footer exists.  The
predicates read the line text directly (the data model guarantees extracted
lines are trimmed). -/

/-- Claim wording: the line ends in terminal punctuation `.`, `!` or `?`. -/
def endsTermSpec (t : String) : Bool :=
  pyEndsWith t "." || pyEndsWith t "!" || pyEndsWith t "?"

/-- Claim wording: at most two words, not ending in `:` or `;`. -/
def shortSpec (t : String) : Bool :=
  decide ((pyWords t).length ≤ 2) && !(pyEndsWith t ":") && !(pyEndsWith t ";")

/-- Claim wording: the line ends in `!`. -/
def bangSpec (t : String) : Bool :=
  pyEndsWith t "!"

/-- The segmentation as the claim states it. -/
def segSpecClaim {α : Type} : List (Line α) → List (Line α) → Bool → List (Seg α)
  | [], _, _ => []
  | l :: rest, cur, footerExists =>
    if rest.isEmpty = true ∨ endsTermSpec l.1 = true ∨ shortSpec l.1 = true then
      Seg.body (cur ++ [l]) ::
        (if (bangSpec l.1 = true ∨ shortSpec l.1 = true) ∧ ¬(rest.isEmpty = true ∧ footerExists = true)
         then Seg.blank :: segSpecClaim rest [] footerExists
         else segSpecClaim rest [] footerExists)
    else
      segSpecClaim rest (cur ++ [l]) footerExists

namespace Main3

/-- main3.py lines 208-217 (the `while lines:` loop), processed along the
reversed list: a blank trailing line is popped and discarded, a line
matching the attribution pattern is popped onto the front of the footer,
and the first non-matching line stops the scan. -/
def footerScan : List (Line Bool) → List (Line Bool) → List (Line Bool) × List (Line Bool)
  | [], acc => ([], acc)
  | l :: rest, acc =>
    if pyStrip l.1 = "" then footerScan rest acc
    else if isAttrib (pyStrip l.1) then footerScan rest (l :: acc)
    else ((l :: rest).reverse, acc)

/-- main3.py lines 207-217: split the line list into the remaining body and
the extracted footer lines. -/
def footerSplit (lines : List (Line Bool)) : List (Line Bool) × List (Line Bool) :=
  footerScan lines.reverse []

end Main3

/-! ### Slide model, clearing and composition -/

/-- The two halves of a slide. -/
inductive Side where
  | left
  | right
deriving DecidableEq, Repr

/-- `Inches(5)` in EMU: the midpoint abscissa dividing the two sides. -/
def midpointEmu : Nat := 5 * 914400

/-- A rendered run: text plus the font attributes the scripts assign
(`none` models an attribute left at its python-pptx default). -/
structure RunOut where
  text : String
  sizePt : Nat
  bold : Option Bool
  italic : Option Bool
deriving DecidableEq, Repr

/-- A rendered paragraph: its runs, whether `alignment = PP_ALIGN.LEFT` was
set, and the explicit space-before/space-after points, when set. -/
structure ParaOut where
  runs : List RunOut
  alignLeft : Bool
  spaceBefore : Option Nat
  spaceAfter : Option Nat
deriving DecidableEq, Repr

/-- What a slide shape holds: an untouched template shape (identified
abstractly) or a text box composed by the engine. -/
inductive ShapePayload where
  | other (id : Nat)
  | textbox (paras : List ParaOut)
deriving DecidableEq, Repr

/-- A slide shape: its left-edge coordinate in EMU (`none` models a shape
without a `left` attribute, which `hasattr(shape, "left")` skips) and its
payload. -/
structure Shape where
  leftEmu : Option Nat
  payload : ShapePayload
deriving DecidableEq, Repr

/-- A slide: its ordered shape collection. -/
abbrev Slide := List Shape

namespace MainPy

/-- main.py line 89 compares `shape.left.inches` — a float, `emu / 914400`
— against `midpoint = Inches(5)`, which is the EMU integer `4572000`.
Over the rationals `emu / 914400 < 4572000` is exactly
`emu < 4572000 * 914400` (the float comparison agrees: all quantities are
far below 2^53). -/
def leftInchesLtMidpoint (emu : Nat) : Bool :=
  decide (emu < 4572000 * 914400)

/-- main.py `clear_side` (lines 87-92): keep the shapes that are not
selected for removal by the (unit-mismatched) comparison. -/
def clear_side (side : Side) (slide : Slide) : Slide :=
  slide.filter (fun sh =>
    match sh.leftEmu with
    | none => true
    | some l =>
      match side with
      | .left => !(leftInchesLtMidpoint l)
      | .right => leftInchesLtMidpoint l)

/-- main.py lines 95-100: the composed text box's left edge
(`Inches(0.5)` / `Inches(5.2)`). -/
def boxLeft : Side → Nat
  | .left => 457200
  | .right => 4754880

/-- main.py lines 114-120: the title paragraph. -/
def titlePara (title : String) : ParaOut :=
  { runs := [{ text := title, sizePt := 11, bold := some true, italic := none }]
    alignLeft := true, spaceBefore := none, spaceAfter := none }

/-- main.py lines 151-158: the runs of one verse paragraph — every line but
the last gets an appended newline. -/
def verseRuns : List (Line (Option Bool)) → List RunOut
  | [] => []
  | [l] => [{ text := l.1, sizePt := 11, bold := none, italic := l.2 }]
  | l :: rest => { text := l.1 ++ "\n", sizePt := 11, bold := none, italic := l.2 } :: verseRuns rest

/-- main.py lines 145-165: the paragraph a segment renders to. -/
def segPara (s : Seg (Option Bool)) : ParaOut :=
  match s with
  | .body v => { runs := verseRuns v, alignLeft := true, spaceBefore := some 0, spaceAfter := some 0 }
  | .blank => { runs := [], alignLeft := false, spaceBefore := some 12, spaceAfter := some 0 }

/-- main.py lines 168-177: the footer paragraph, when a footer line exists. -/
def footerParas (lli : Option (Line (Option Bool))) : List ParaOut :=
  match lli with
  | none => []
  | some l =>
    [{ runs := [{ text := l.1, sizePt := 5, bold := none, italic := l.2 }]
       alignLeft := true, spaceBefore := some 12, spaceAfter := some 0 }]

/-- main.py lines 114-177: the paragraphs of the composed text box.
`last_line_info` is assigned only inside the `if lines:` branch (line 125)
but read unconditionally at line 168, so an empty `lines` list reaches an
unassigned local — Python's `NameError`, modelled as `Except.error`. -/
def song_paras (title : String) (lines : List (Line (Option Bool))) :
    Except Unit (List ParaOut) :=
  match lines with
  | [] => .error ()
  | _ :: _ =>
    let lfc := dropDupTitle title lines
    let fp := footerPop lfc
    let segs := segLoop fp.2 [] fp.1.isSome
    .ok (titlePara title :: (segs.map segPara ++ footerParas fp.1))

/-- main.py `add_song_content` (lines 94-179): clear the side, then append
one text box at the side's fixed rectangle holding the rendered paragraphs. -/
def add_song_content (side : Side) (title : String)
    (lines : List (Line (Option Bool))) (slide : Slide) : Except Unit Slide :=
  (song_paras title lines).map (fun ps =>
    clear_side side slide ++ [{ leftEmu := some (boxLeft side), payload := .textbox ps }])

/-- One entry of main.py's `SONG_SLIDE_MAP` joined with the downloaded
document for its song (`none`: unreadable or missing). -/
structure Entry where
  slideIdx : Nat
  side : Side
  title : String
  doc : Option Doc
deriving Repr

/-- The slide deck: slides in order. -/
abbrev Deck := List Slide

/-- main.py lines 198-242, one loop iteration: an out-of-range slide index
is skipped (`except IndexError: continue`); when extraction yields no lines
the deck is untouched; otherwise the side is cleared (line 239) and
`add_song_content` composes onto it (line 240). -/
def processEntry (d : Deck) (e : Entry) : Except Unit Deck :=
  if d.length ≤ e.slideIdx then .ok d
  else
    let lines := extract_text_and_style e.doc
    if lines.isEmpty then .ok d
    else
      match add_song_content e.side e.title lines (clear_side e.side (d.getD e.slideIdx [])) with
      | .error u => .error u
      | .ok slide2 => .ok (d.set e.slideIdx slide2)

/-- main.py lines 197-242: the whole `SONG_SLIDE_MAP` loop. -/
def processAll (d : Deck) : List Entry → Except Unit Deck
  | [] => .ok d
  | e :: rest =>
    match processEntry d e with
    | .error u => .error u
    | .ok d2 => processAll d2 rest

/-- The texts that end up in main.py's rendered body (title and footer
paragraphs aside): the lines of the emitted verse segments, in order. -/
def body_lines (title : String) (lines : List (Line (Option Bool))) :
    List (Line (Option Bool)) :=
  flattenBody (segLoop (footerPop (dropDupTitle title lines)).2 []
    (footerPop (dropDupTitle title lines)).1.isSome)

end MainPy

namespace Main2

/-- main2.py `clear_side` (lines 88-98, identical in main3.py lines 154-164
and main4.py lines 183-192): both operands of the comparison are EMU. -/
def clear_side (side : Side) (slide : Slide) : Slide :=
  slide.filter (fun sh =>
    match sh.leftEmu with
    | none => true
    | some l =>
      match side with
      | .left => !decide (l < midpointEmu)
      | .right => !decide (midpointEmu ≤ l))

/-- main2.py lines 101-104: the composed box's left edge
(`LEFT_MARGIN = 0.1` / `RIGHT_MARGIN = 5.0` inches). -/
def boxLeft : Side → Nat
  | .left => 91440
  | .right => 4572000

/-- main2.py line 122: the footer test reads the raw (unstripped) text of
the last line. -/
def footerPop {α : Type} (ls : List (Line α)) : Option (Line α) × List (Line α) :=
  match ls.getLast? with
  | none => (none, ls)
  | some l =>
    if hasDigit l.1 && hasCommaOrDot l.1 then (some l, ls.dropLast) else (none, ls)

/-- main2.py lines 113-119: the title paragraph. -/
def titlePara (title : String) : ParaOut :=
  { runs := [{ text := title, sizePt := 11, bold := some true, italic := none }]
    alignLeft := true, spaceBefore := none, spaceAfter := none }

/-- main2.py lines 126-133: one paragraph per body line. -/
def linePara (l : Line (Option Bool)) : ParaOut :=
  { runs := [{ text := l.1, sizePt := 11, bold := none, italic := l.2 }]
    alignLeft := true, spaceBefore := none, spaceAfter := none }

/-- main2.py lines 135-144: the footer paragraph. -/
def footerParas (lli : Option (Line (Option Bool))) : List ParaOut :=
  match lli with
  | none => []
  | some l =>
    [{ runs := [{ text := l.1, sizePt := 5, bold := none, italic := l.2 }]
       alignLeft := true, spaceBefore := some 12, spaceAfter := some 0 }]

/-- main2.py lines 112-144: the paragraphs of the composed text box. -/
def song_paras (title : String) (lines : List (Line (Option Bool))) : List ParaOut :=
  let l1 := dropDupTitle title lines
  let fp := footerPop l1
  titlePara title :: (fp.2.map linePara ++ footerParas fp.1)

/-- main2.py `add_song_content` (lines 100-146): clear the side, then append
one text box holding the rendered paragraphs. -/
def add_song_content (side : Side) (title : String)
    (lines : List (Line (Option Bool))) (slide : Slide) : Slide :=
  clear_side side slide ++
    [{ leftEmu := some (boxLeft side), payload := .textbox (song_paras title lines) }]

end Main2

/-! ### Order-of-service hymn-title substitution (main3.py / main4.py) -/

/-- After an opening parenthesis: drop characters up to and including the
nearest `')'` (`.*?` cannot cross a newline; `none` when no close exists). -/
def findClose : List Char → Option (List Char)
  | [] => none
  | c :: rest =>
    if c = ')' then some rest
    else if c = '\n' then none
    else findClose rest

/-- One attempted match of `\s*\(.*?\)` anchored at the head: greedily take
whitespace, require `'('`, then consume minimally up to `')'`.  Returns the
remainder after the match. -/
def matchParenAt (l : List Char) : Option (List Char) :=
  match l.dropWhile Char.isWhitespace with
  | [] => none
  | c :: rest => if c = '(' then findClose rest else none

/-- `re.sub(r'\s*\(.*?\)', '', s)` on the character list: scan left to
right, removing every leftmost match.  Structural recursion on a fuel that
bounds the input length (each step strictly shrinks the list, by
`matchParenAt_length_lt`, so the fuel is never exhausted on a non-empty
list). -/
def removeParensAux : Nat → List Char → List Char
  | 0, l => l
  | _ + 1, [] => []
  | fuel + 1, c :: rest =>
    match matchParenAt (c :: rest) with
    | some rem => removeParensAux fuel rem
    | none => c :: removeParensAux fuel rest

/-- `re.sub(r'\s*\(.*?\)', '', s)` on the character list. -/
def removeParens (l : List Char) : List Char :=
  removeParensAux l.length l

/-- A shape of the order-of-service slide: whether it has a text frame, its
left-edge coordinate (EMU) and its paragraph texts.  Run-level styling is
constant in the source (`FONT_NAME`/`FONT_SIZE`, bold marker run) and not
modelled. -/
structure OShape where
  hasTextFrame : Bool
  leftEmu : Nat
  paras : List String
deriving DecidableEq, Repr

namespace Main3

/-- main3.py line 283 (main4.py line 272):
`re.sub(r'\s*\(.*?\)', '', raw_title).strip()`. -/
def cleanTitle (raw : String) : String :=
  pyStrip (String.mk (removeParens raw.toList))

/-- main3.py line 284: `f'“{clean_title}”'`. -/
def quotedTitle (raw : String) : String :=
  "“" ++ cleanTitle raw ++ "”"

/-- main3.py lines 287-288 and 294: `padding = max(1, total_width -
len(quoted_title) - 5)` with `total_width = 60`, then the paragraph text
`"HYMN" + " " * padding + quoted_title`.  Python's int subtraction can go
negative but is then clamped to 1, which agrees with the clamped Nat
subtraction. -/
def hymnParaText (raw : String) : String :=
  "HYMN" ++ String.mk (List.replicate (max 1 (60 - pyLen (quotedTitle raw) - 5)) ' ')
    ++ quotedTitle raw

/-- main3.py lines 278-303: the paragraph loop of one shape, threading the
global `hymn_index`. -/
def subParas (titles : List String) : List String → Nat → List String × Nat
  | [], idx => ([], idx)
  | p :: rest, idx =>
    if pyStartsWith (pyStrip p) "HYMN" && decide (idx < titles.length) then
      let r := subParas titles rest (idx + 1)
      (hymnParaText (titles.getD idx "") :: r.1, r.2)
    else
      let r := subParas titles rest idx
      (p :: r.1, r.2)

/-- main3.py lines 273-303: the shape loop — shapes without a text frame or
with `shape.left >= Inches(5)` are skipped. -/
def subShapes (titles : List String) : List OShape → Nat → List OShape
  | [], _ => []
  | sh :: rest, idx =>
    if !sh.hasTextFrame || decide (midpointEmu ≤ sh.leftEmu) then
      sh :: subShapes titles rest idx
    else
      let r := subParas titles sh.paras idx
      { sh with paras := r.1 } :: subShapes titles rest r.2

/-- main3.py `update_order_of_service` (lines 268-305; the same logic is
main4.py lines 261-287): substitute the ordered titles into the
`HYMN`-prefixed paragraphs of the slide's left-half text shapes. -/
def update_order_of_service (titles : List String) (shapes : List OShape) : List OShape :=
  subShapes titles shapes 0

end Main3

/-! Claim-side formatting, written from the (amended) claim's wording: the
quoted, parenthetical-stripped title is set after the `HYMN` marker with
enough spaces to reach the fixed total column width 59 when it fits
(quoted length at most 54), and a single space otherwise. -/

/-- Claim wording: pad to total column width 59 when the quoted title fits,
else a single separating space. -/
def specHymnParaText (raw : String) : String :=
  if pyLen (Main3.quotedTitle raw) ≤ 54 then
    "HYMN" ++ String.mk (List.replicate (59 - (4 + pyLen (Main3.quotedTitle raw))) ' ')
      ++ Main3.quotedTitle raw
  else
    "HYMN " ++ Main3.quotedTitle raw

/-- Claim wording: walk the left-half text shapes top to bottom,
substituting the next unused title into each marker paragraph until the
title list is exhausted; every other paragraph is untouched. -/
def specSubParas (titles : List String) : List String → Nat → List String × Nat
  | [], idx => ([], idx)
  | p :: rest, idx =>
    if pyStartsWith (pyStrip p) "HYMN" && decide (idx < titles.length) then
      let r := specSubParas titles rest (idx + 1)
      (specHymnParaText (titles.getD idx "") :: r.1, r.2)
    else
      let r := specSubParas titles rest idx
      (p :: r.1, r.2)

/-- Claim wording: the shape walk. -/
def specSubShapes (titles : List String) : List OShape → Nat → List OShape
  | [], _ => []
  | sh :: rest, idx =>
    if !sh.hasTextFrame || decide (midpointEmu ≤ sh.leftEmu) then
      sh :: specSubShapes titles rest idx
    else
      let r := specSubParas titles sh.paras idx
      { sh with paras := r.1 } :: specSubShapes titles rest r.2

/-- The substitution as the amended claim states it. -/
def specUpdateOrderOfService (titles : List String) (shapes : List OShape) : List OShape :=
  specSubShapes titles shapes 0

/-! ### Helper lemmas -/

theorem findClose_length_le : ∀ (l rem : List Char), findClose l = some rem →
    rem.length ≤ l.length := by
  intro l
  induction l with
  | nil => intro rem h; simp [findClose] at h
  | cons c cs ih =>
    intro rem h
    simp only [findClose] at h
    split at h
    · cases h; exact Nat.le_succ_of_le (Nat.le_refl _)
    · split at h
      · cases h
      · exact Nat.le_succ_of_le (ih rem h)

theorem matchParenAt_length_lt : ∀ (l rem : List Char), matchParenAt l = some rem →
    rem.length < l.length := by
  intro l rem h
  unfold matchParenAt at h
  rcases hd : l.dropWhile Char.isWhitespace with _ | ⟨c, cs⟩
  · rw [hd] at h; cases h
  · rw [hd] at h
    rw [show (match c :: cs with
          | [] => none
          | c :: rest => if c = '(' then findClose rest else none) =
        if c = '(' then findClose cs else none from rfl] at h
    by_cases hc : c = '('
    · rw [if_pos hc] at h
      have h1 : rem.length ≤ cs.length := findClose_length_le cs rem h
      have h2 : (c :: cs).length ≤ l.length := by
        have hsub := List.dropWhile_sublist (p := Char.isWhitespace) (l := l)
        rw [hd] at hsub
        exact hsub.length_le
      simp only [List.length_cons] at h2
      omega
    · rw [if_neg hc] at h
      cases h

theorem charsStartWith_nonempty {c : Char} {cs l : List Char}
    (h : charsStartWith (c :: cs) l = true) : 0 < l.length := by
  cases l with
  | nil => exact absurd h (by simp [charsStartWith])
  | cons a as => simp

theorem pyEndsWith_pos {t s : String} (hs : ¬ s.toList.reverse = [])
    (h : pyEndsWith t s = true) : 0 < pyLen t := by
  unfold pyEndsWith at h
  unfold pyLen
  rcases hsl : s.toList.reverse with _ | ⟨c, cs⟩
  · exact absurd hsl hs
  · rw [hsl] at h
    have hpos := charsStartWith_nonempty h
    simpa using hpos

theorem flattenBody_cons {α : Type} (s : Seg α) (rest : List (Seg α)) :
    flattenBody (s :: rest) =
      (match s with | .body v => v | .blank => []) ++ flattenBody rest := by
  simp [flattenBody]

/-- Every line fed to the verse loop ends up, in order, in the emitted body
segments: the loop only groups, it never drops or reorders (the last line
always flushes the verse buffer, hence the non-emptiness hypothesis). -/
theorem flattenBody_segLoop {α : Type} (ls : List (Line α)) :
    ∀ (cur : List (Line α)) (f : Bool), ls ≠ [] →
      flattenBody (MainPy.segLoop ls cur f) = cur ++ ls := by
  induction ls with
  | nil => intro cur f h; exact absurd rfl h
  | cons l rest ih =>
    intro cur f _
    by_cases hre : rest = []
    · subst hre
      simp only [MainPy.segLoop, List.isEmpty_nil, if_true]
      split_ifs with hblank
      · simp [MainPy.segLoop, flattenBody]
      · simp [MainPy.segLoop, flattenBody]
    · have hres : rest.isEmpty = false := by
        cases rest with
        | nil => exact absurd rfl hre
        | cons a as => rfl
      simp only [MainPy.segLoop, hres, Bool.false_eq_true, if_false]
      split_ifs with h1 h2
      · rw [flattenBody_cons, flattenBody_cons, ih [] f hre]
        simp
      · rw [flattenBody_cons, ih [] f hre]
        simp
      · rw [ih (cur ++ [l]) f hre]
        simp

/-- The code's terminal-punctuation test agrees with the claim's wording on
trimmed lines. -/
theorem endsTermPy_eq_spec (t : String) (h : pyStrip t = t) :
    MainPy.endsTermPy t = endsTermSpec t := by
  unfold MainPy.endsTermPy endsTermSpec
  rw [h]
  cases hx : (pyEndsWith t "." || pyEndsWith t "!" || pyEndsWith t "?") with
  | false => simp
  | true =>
    have hpos : 0 < pyLen t := by
      rcases Bool.or_eq_true_iff.mp hx with h1 | h2
      · rcases Bool.or_eq_true_iff.mp h1 with h3 | h4
        · exact pyEndsWith_pos (by decide) h3
        · exact pyEndsWith_pos (by decide) h4
      · exact pyEndsWith_pos (by decide) h2
    simp [hpos]

/-- The code's short-line test agrees with the claim's wording on trimmed
lines. -/
theorem shortPy_eq_spec (t : String) (h : pyStrip t = t) :
    MainPy.shortPy t = shortSpec t := by
  unfold MainPy.shortPy shortSpec
  rw [h]

/-- The code's exclamation test agrees with the claim's wording on trimmed
lines. -/
theorem bangPy_eq_spec (t : String) (h : pyStrip t = t) :
    MainPy.bangPy t = bangSpec t := by
  unfold MainPy.bangPy bangSpec
  rw [h]
  cases hx : pyEndsWith t "!" with
  | false => simp
  | true =>
    have hpos : 0 < pyLen t := pyEndsWith_pos (by decide) hx
    simp [hpos]

/-- Invariant of main3.py's backward footer scan (`rev` is the reversed
remaining list, `acc` the footer collected so far): the scanned suffix
`mid` contains exactly the collected attribution lines plus discarded
blanks, and a non-empty remaining body ends in a non-blank, non-matching
line. -/
theorem footerScan_spec (rev : List (Line Bool)) (acc : List (Line Bool)) :
    ∃ mid : List (Line Bool),
      rev.reverse = (Main3.footerScan rev acc).1 ++ mid ∧
      (Main3.footerScan rev acc).2 = mid.filter nonblank ++ acc ∧
      (∀ l ∈ mid, nonblank l = true → isAttrib (pyStrip l.1) = true) ∧
      (∀ b, (Main3.footerScan rev acc).1.getLast? = some b →
        nonblank b = true ∧ isAttrib (pyStrip b.1) = false) := by
  induction rev generalizing acc with
  | nil =>
    refine ⟨[], by simp [Main3.footerScan], by simp [Main3.footerScan], by simp, ?_⟩
    intro b hb
    simp [Main3.footerScan] at hb
  | cons l rest ih =>
    by_cases hb : pyStrip l.1 = ""
    · have hscan : Main3.footerScan (l :: rest) acc = Main3.footerScan rest acc := by
        simp [Main3.footerScan, hb]
      obtain ⟨mid, h1, h2, h3, h4⟩ := ih acc
      refine ⟨mid ++ [l], ?_, ?_, ?_, ?_⟩
      · rw [hscan, List.reverse_cons, h1, List.append_assoc]
      · rw [hscan, h2, List.filter_append]
        have : nonblank l = false := by simp [nonblank, hb]
        simp [this]
      · intro x hx hnb
        rcases List.mem_append.mp hx with hx1 | hx2
        · exact h3 x hx1 hnb
        · rcases List.mem_singleton.mp hx2 with rfl
          exact absurd hnb (by simp [nonblank, hb])
      · intro b hbl
        rw [hscan] at hbl
        exact h4 b hbl
    · by_cases ha : isAttrib (pyStrip l.1) = true
      · have hscan : Main3.footerScan (l :: rest) acc = Main3.footerScan rest (l :: acc) := by
          simp [Main3.footerScan, hb, ha]
        obtain ⟨mid, h1, h2, h3, h4⟩ := ih (l :: acc)
        refine ⟨mid ++ [l], ?_, ?_, ?_, ?_⟩
        · rw [hscan, List.reverse_cons, h1, List.append_assoc]
        · rw [hscan, h2, List.filter_append]
          have : nonblank l = true := by simp [nonblank, hb]
          simp [this]
        · intro x hx hnb
          rcases List.mem_append.mp hx with hx1 | hx2
          · exact h3 x hx1 hnb
          · rcases List.mem_singleton.mp hx2 with rfl
            exact ha
        · intro b hbl
          rw [hscan] at hbl
          exact h4 b hbl
      · have hscan : Main3.footerScan (l :: rest) acc = ((l :: rest).reverse, acc) := by
          simp [Main3.footerScan, hb, ha]
        refine ⟨[], by simp [hscan], by simp [hscan], by simp, ?_⟩
        intro b hbl
        rw [hscan] at hbl
        simp only [List.reverse_cons] at hbl
        rw [List.getLast?_concat] at hbl
        cases hbl
        exact ⟨by simp [nonblank, hb], by simpa using ha⟩

/-- When the scan meets no blank lines, splitting and re-appending is the
identity (invariant form over the reversed list). -/
theorem footerScan_reconstruct (rev : List (Line Bool)) :
    ∀ acc : List (Line Bool), (∀ l ∈ rev, ¬ pyStrip l.1 = "") →
      (Main3.footerScan rev acc).1 ++ (Main3.footerScan rev acc).2 = rev.reverse ++ acc := by
  induction rev with
  | nil => intro acc _; simp [Main3.footerScan]
  | cons l rest ih =>
    intro acc h
    have hl : ¬ pyStrip l.1 = "" := h l (by simp)
    have hrest : ∀ x ∈ rest, ¬ pyStrip x.1 = "" := fun x hx => h x (by simp [hx])
    by_cases ha : isAttrib (pyStrip l.1) = true
    · rw [show Main3.footerScan (l :: rest) acc = Main3.footerScan rest (l :: acc) by
        simp [Main3.footerScan, hl, ha]]
      rw [ih (l :: acc) hrest]
      simp
    · rw [show Main3.footerScan (l :: rest) acc = ((l :: rest).reverse, acc) by
        simp [Main3.footerScan, hl, ha]]

/-- The code's padding formula agrees with the claim-side fixed-width
formulation. -/
theorem hymnParaText_eq_spec (raw : String) :
    Main3.hymnParaText raw = specHymnParaText raw := by
  unfold Main3.hymnParaText specHymnParaText
  by_cases hq : pyLen (Main3.quotedTitle raw) ≤ 54
  · rw [if_pos hq]
    have hm : max 1 (60 - pyLen (Main3.quotedTitle raw) - 5) =
        59 - (4 + pyLen (Main3.quotedTitle raw)) := by omega
    rw [hm]
  · rw [if_neg hq]
    have hm : max 1 (60 - pyLen (Main3.quotedTitle raw) - 5) = 1 := by omega
    rw [hm]
    rw [show "HYMN" ++ String.mk (List.replicate 1 ' ') = "HYMN " from by decide]

/-- The paragraph walk of the substitution agrees with the claim-side walk. -/
theorem subParas_eq_spec (titles : List String) (ps : List String) :
    ∀ idx, Main3.subParas titles ps idx = specSubParas titles ps idx := by
  induction ps with
  | nil => intro idx; rfl
  | cons p rest ih =>
    intro idx
    simp only [Main3.subParas, specSubParas, hymnParaText_eq_spec, ih]

/-- The shape walk of the substitution agrees with the claim-side walk. -/
theorem subShapes_eq_spec (titles : List String) (shapes : List OShape) :
    ∀ idx, Main3.subShapes titles shapes idx = specSubShapes titles shapes idx := by
  induction shapes with
  | nil => intro idx; rfl
  | cons sh rest ih =>
    intro idx
    simp only [Main3.subShapes, specSubShapes, subParas_eq_spec, ih]

/-- main2.py's clearing (also main3/main4's) is side-scoped: clearing the
left side keeps every shape whose left edge is at or beyond the midpoint. -/
theorem main2_clear_left_keeps_right (slide : Slide) (sh : Shape) (l : Nat)
    (hmem : sh ∈ slide) (hl : sh.leftEmu = some l) (hge : midpointEmu ≤ l) :
    sh ∈ Main2.clear_side .left slide := by
  unfold Main2.clear_side
  refine List.mem_filter.mpr ⟨hmem, ?_⟩
  simp only [hl]
  simp only [Bool.not_eq_true']
  rw [decide_eq_false_iff_not]
  omega

/-- main2.py's clear-then-compose is idempotent: the second clearing
removes exactly the container the first composition added, and the rendered
content is a pure function of the inputs. -/
theorem main2_add_song_content_idempotent (side : Side) (title : String)
    (lines : List (Line (Option Bool))) (slide : Slide) :
    Main2.add_song_content side title lines (Main2.add_song_content side title lines slide) =
      Main2.add_song_content side title lines slide := by
  unfold Main2.add_song_content
  congr 1
  unfold Main2.clear_side
  rw [List.filter_append, List.filter_filter]
  have h2 : ∀ L : Slide, ∀ p : Shape → Bool, L.filter (fun a => p a && p a) = L.filter p := by
    intro L p
    congr 1
    funext a
    exact Bool.and_self (p a)
  rw [h2]
  have hbox : ∀ ps : List ParaOut,
      List.filter (fun sh : Shape =>
        match sh.leftEmu with
        | none => true
        | some l =>
          match side with
          | .left => !decide (l < midpointEmu)
          | .right => !decide (midpointEmu ≤ l))
        [{ leftEmu := some (Main2.boxLeft side), payload := .textbox ps }] = [] := by
    intro ps
    cases side <;> simp [Main2.boxLeft, midpointEmu]
  rw [hbox]
  simp

/-- The rendered body is exactly the footer-stripped, title-deduplicated
line list: the verse loop groups without dropping. -/
theorem body_lines_eq (title : String) (lines : List (Line (Option Bool))) :
    MainPy.body_lines title lines = (MainPy.footerPop (dropDupTitle title lines)).2 := by
  unfold MainPy.body_lines
  by_cases hb : (MainPy.footerPop (dropDupTitle title lines)).2 = []
  · rw [hb]; rfl
  · rw [flattenBody_segLoop _ [] _ hb]
    simp

/-! ### Claim theorems -/

/-- C1 (code-bug evidence): main.py line 89 compares `shape.left.inches`
(a float measured in inches) against `midpoint = Inches(5)` (the EMU
integer 4572000), so clearing the `'left'` side removes a shape whose left
edge `Inches(6)` = 5486400 EMU lies at or beyond the midpoint — the claim
says such a shape is never removed.  The sibling revisions' all-EMU
comparison (main2.py line 94) keeps it. -/
theorem clear_side_left_removes_right_shape :
    midpointEmu ≤ 5486400 ∧
    MainPy.clear_side .left [⟨some 5486400, .other 0⟩] = [] ∧
    Main2.clear_side .left [⟨some 5486400, .other 0⟩] = [⟨some 5486400, .other 0⟩] :=
  ⟨by decide, by decide, by decide⟩

/-- C6 (code-bug evidence): with main.py's unit-mismatched clearing, the
`'right'` side is never cleared (`shape.left.inches >= 4572000` is false
for any real coordinate), so clear-then-compose on the right side
accumulates a second container instead of replacing the first: one box
after one invocation, two after two. -/
theorem clear_then_compose_right_not_idempotent :
    (MainPy.add_song_content .right "T" [("la la la.", none)] []).toOption.map
      List.length = some 1 ∧
    ((MainPy.add_song_content .right "T" [("la la la.", none)] []).toOption.bind
      (fun s => (MainPy.add_song_content .right "T" [("la la la.", none)] s).toOption)).map
      List.length = some 2 :=
  ⟨by decide, by decide⟩

/-- C2 (counterexample): the paragraph `"chorus"` matches the structural
marker pattern case-insensitively, yet main.py's case-sensitive
`re.match(r'Chorus', ...)` does not discard it — the marker text is emitted
as a line. -/
theorem lowercase_marker_kept_by_mainpy :
    Main3.isMarker (pyStrip (paraText [⟨"chorus", none⟩])) = true ∧
    MainPy.extract_text_and_style (some [[⟨"chorus", none⟩]]) = [("chorus", none)] :=
  ⟨by decide, by decide⟩

/-- C2 (amended): in main3.py/main4.py, a paragraph whose trimmed text
matches the structural-marker pattern case-insensitively is discarded — it
contributes nothing to the extractor's output, wherever it occurs. -/
theorem marker_paragraph_discarded_main3 (pre post : Doc) (p : Para)
    (h : Main3.isMarker (pyStrip (paraText p)) = true) :
    Main3.extract_text_and_style (some (pre ++ p :: post)) =
      Main3.extract_text_and_style (some (pre ++ post)) := by
  have hp : Main3.paraLines p = [] := by
    unfold Main3.paraLines
    have hne : ¬ pyStrip (paraText p) = "" := by
      intro he
      rw [he] at h
      exact absurd h (by decide)
    rw [if_neg hne, if_pos h]
  simp only [Main3.extract_text_and_style, List.flatMap_append, List.flatMap_cons, hp]
  simp

theorem marker_paragraph_discarded_main3_witness :
    Main3.isMarker (pyStrip (paraText [⟨"CHORUS", none⟩])) = true ∧
    Main3.extract_text_and_style
        (some ([[⟨"He is risen", none⟩]] ++ [⟨"CHORUS", none⟩] :: [[⟨"Sing on", none⟩]])) =
      Main3.extract_text_and_style (some ([[⟨"He is risen", none⟩]] ++ [[⟨"Sing on", none⟩]])) :=
  ⟨by decide, marker_paragraph_discarded_main3 _ _ _ (by decide)⟩

/-- C3 (counterexample): a one-line list whose only line equals the title
is NOT deduplicated — `len(lines) > 1` fails — so the duplicate title line
stays among the rendered body lines, although the first line's trimmed text
equals the trimmed title case-insensitively. -/
theorem single_duplicate_title_line_kept :
    dropDupTitle "Amazing Grace" [(("Amazing Grace", none) : Line (Option Bool))] =
      [("Amazing Grace", none)] ∧
    MainPy.body_lines "Amazing Grace" [("Amazing Grace", none)] = [("Amazing Grace", none)] :=
  ⟨by decide, by decide⟩

/-- C3 (amended): the first line is dropped exactly when the list has MORE
THAN ONE line and the first line's trimmed text case-insensitively equals
the trimmed title; otherwise the list passes through unchanged.  In either
case the rendered body lines are the remaining lines with the footer
stripped. -/
theorem duplicate_title_suppression_amended :
    (∀ (title : String) (lines : List (Line (Option Bool))),
        1 < lines.length →
        pyLower (pyStrip (lines.headD ("", none)).1) = pyLower (pyStrip title) →
        MainPy.body_lines title lines = (MainPy.footerPop lines.tail).2) ∧
    (∀ (title : String) (lines : List (Line (Option Bool))),
        ¬(1 < lines.length ∧
            pyLower (pyStrip (lines.headD ("", none)).1) = pyLower (pyStrip title)) →
        MainPy.body_lines title lines = (MainPy.footerPop lines).2) := by
  constructor
  · intro title lines h1 h2
    rw [body_lines_eq]
    cases lines with
    | nil => simp at h1
    | cons l rest =>
      have hdrop : dropDupTitle title (l :: rest) = rest := by
        show (if (l :: rest).length > 1 ∧ pyLower (pyStrip l.1) = pyLower (pyStrip title)
            then rest else l :: rest) = rest
        rw [if_pos ⟨h1, by simpa using h2⟩]
      rw [hdrop]
      rfl
  · intro title lines h
    rw [body_lines_eq]
    cases lines with
    | nil => rfl
    | cons l rest =>
      have hdrop : dropDupTitle title (l :: rest) = l :: rest := by
        show (if (l :: rest).length > 1 ∧ pyLower (pyStrip l.1) = pyLower (pyStrip title)
            then rest else l :: rest) = l :: rest
        rw [if_neg]
        intro hc
        exact h ⟨hc.1, by simpa using hc.2⟩
      rw [hdrop]

theorem duplicate_title_suppression_amended_witness :
    1 < ([(("Amazing Grace", none) : Line (Option Bool)), ("How sweet the sound", none)]).length ∧
    pyLower (pyStrip (([(("Amazing Grace", none) : Line (Option Bool)),
        ("How sweet the sound", none)]).headD ("", none)).1) = pyLower (pyStrip "amazing grace") ∧
    MainPy.body_lines "amazing grace" [("Amazing Grace", none), ("How sweet the sound", none)] =
      (MainPy.footerPop ([(("Amazing Grace", none) : Line (Option Bool)),
        ("How sweet the sound", none)]).tail).2 :=
  ⟨by decide, by decide,
    duplicate_title_suppression_amended.1 "amazing grace"
      [("Amazing Grace", none), ("How sweet the sound", none)] (by decide) (by decide)⟩

/-- C4 (counterexample): in main3.py's footer extraction the trailing line
`"Words and Music by John Newton"` is classified as Footer although it
contains no digit (and no comma or period) — the claimed
digit-and-punctuation criterion is not what decides the trailing line
there; the attribution pattern is. -/
theorem footer_without_digit_classified_main3 :
    hasDigit "Words and Music by John Newton" = false ∧
    hasCommaOrDot "Words and Music by John Newton" = false ∧
    Main3.footerSplit [("He rose", false), ("Words and Music by John Newton", false)] =
      ([("He rose", false)], [("Words and Music by John Newton", false)]) :=
  ⟨by decide, by decide, by decide⟩

/-- C4 (amended): the two revisions use two different rules.  main.py
classifies exactly the single trailing line as Footer, if and only if its
trimmed text contains a digit and a comma or period.  main3.py scans
backward: every extracted footer line matches the attribution pattern, the
scanned suffix contributes exactly its non-blank lines to the footer
(blanks are discarded), and the scan stops at the first non-matching line
— so a non-empty remaining body ends in a non-blank, non-matching line. -/
theorem footer_extraction_rules_amended :
    (∀ (α : Type) (ls : List (Line α)) (l : Line α),
        MainPy.footerPop (ls ++ [l]) =
          if hasDigit (pyStrip l.1) && hasCommaOrDot (pyStrip l.1)
          then (some l, ls) else (none, ls ++ [l])) ∧
    (∀ lines : List (Line Bool), ∃ mid : List (Line Bool),
        lines = (Main3.footerSplit lines).1 ++ mid ∧
        (Main3.footerSplit lines).2 = mid.filter nonblank ∧
        (∀ l ∈ mid, nonblank l = true → isAttrib (pyStrip l.1) = true) ∧
        (∀ b, (Main3.footerSplit lines).1.getLast? = some b →
          nonblank b = true ∧ isAttrib (pyStrip b.1) = false)) := by
  constructor
  · intro α ls l
    unfold MainPy.footerPop
    rw [List.getLast?_concat, List.dropLast_concat]
  · intro lines
    obtain ⟨mid, h1, h2, h3, h4⟩ := footerScan_spec lines.reverse []
    unfold Main3.footerSplit
    rw [List.reverse_reverse] at h1
    refine ⟨mid, h1, ?_, h3, h4⟩
    simpa using h2

theorem footer_extraction_rules_amended_witness :
    MainPy.footerPop [(("Amazing grace", none) : Line (Option Bool)),
        ("Words by John Newton, 1779", none)] =
      (some ("Words by John Newton, 1779", none), [("Amazing grace", none)]) :=
  (footer_extraction_rules_amended.1 (Option Bool) [("Amazing grace", none)]
      ("Words by John Newton, 1779", none)).trans (by decide)

/-- The induction behind C5, with the verse buffer generalized. -/
theorem segLoop_eq_spec {α : Type} (lines : List (Line α)) :
    ∀ (cur : List (Line α)) (f : Bool), (∀ l ∈ lines, pyStrip l.1 = l.1) →
      MainPy.segLoop lines cur f = segSpecClaim lines cur f := by
  induction lines with
  | nil => intro cur f _; rfl
  | cons l rest ih =>
    intro cur f h
    have hl : pyStrip l.1 = l.1 := h l (by simp)
    have hrest : ∀ x ∈ rest, pyStrip x.1 = x.1 := fun x hx => h x (List.mem_cons_of_mem l hx)
    have he := endsTermPy_eq_spec l.1 hl
    have hs := shortPy_eq_spec l.1 hl
    have hb := bangPy_eq_spec l.1 hl
    show (if (if rest.isEmpty then true else MainPy.endsTermPy l.1 || MainPy.shortPy l.1) = true
        then Seg.body (cur ++ [l]) ::
          (if ((MainPy.bangPy l.1 || MainPy.shortPy l.1) && (!rest.isEmpty || !f)) = true
           then Seg.blank :: MainPy.segLoop rest [] f
           else MainPy.segLoop rest [] f)
        else MainPy.segLoop rest (cur ++ [l]) f) =
      (if rest.isEmpty = true ∨ endsTermSpec l.1 = true ∨ shortSpec l.1 = true
        then Seg.body (cur ++ [l]) ::
          (if (bangSpec l.1 = true ∨ shortSpec l.1 = true) ∧ ¬(rest.isEmpty = true ∧ f = true)
           then Seg.blank :: segSpecClaim rest [] f
           else segSpecClaim rest [] f)
        else segSpecClaim rest (cur ++ [l]) f)
    rw [he, hs, hb]
    apply if_congr
    · cases rest.isEmpty <;> simp
    · rw [ih [] f hrest]
      congr 1
      apply if_congr
      · cases hbb : bangSpec l.1 <;> cases hss : shortSpec l.1 <;>
          cases rest.isEmpty <;> cases f <;> simp
      · rfl
      · rfl
    · exact ih (cur ++ [l]) f hrest

/-- C5 (confirmed): on trimmed lines (which is what the extractors emit),
main.py's verse loop declares a boundary after a line exactly when it is
the last body line, or ends in `.`/`!`/`?`, or has at most two words and
does not end in `:`/`;`; and a blank separator follows a segment whose
terminating line ends in `!` or is such a short line, except when that
segment is the final one and a footer line exists — the loop equals the
claim-side segmentation verbatim. -/
theorem verse_segmentation_matches_claim {α : Type} (lines : List (Line α)) (hasFooter : Bool)
    (h : ∀ l ∈ lines, pyStrip l.1 = l.1) :
    MainPy.segLoop lines [] hasFooter = segSpecClaim lines [] hasFooter :=
  segLoop_eq_spec lines [] hasFooter h

theorem verse_segmentation_matches_claim_witness :
    (∀ l ∈ [(("Hallelujah!", true) : Line Bool), ("Sing to the Lord a new song", false)],
      pyStrip l.1 = l.1) ∧
    MainPy.segLoop [(("Hallelujah!", true) : Line Bool),
        ("Sing to the Lord a new song", false)] [] false =
      segSpecClaim [(("Hallelujah!", true) : Line Bool),
        ("Sing to the Lord a new song", false)] [] false :=
  ⟨by decide, verse_segmentation_matches_claim _ _ (by decide)⟩

/-- C7 (counterexample): a blank line inside the scanned attribution
suffix is discarded, so body ++ footer loses it and does not reconstruct
the original stream. -/
theorem footer_reappend_drops_blank_line :
    (Main3.footerSplit [("Lord of all", false), ("", false), ("Public Domain", false)]).1 ++
      (Main3.footerSplit [("Lord of all", false), ("", false), ("Public Domain", false)]).2 =
      [("Lord of all", false), ("Public Domain", false)] ∧
    ¬ ([(("Lord of all", false) : Line Bool), ("Public Domain", false)] =
      [("Lord of all", false), ("", false), ("Public Domain", false)]) :=
  ⟨by decide, by decide⟩

/-- C7 (amended): re-appending the extracted footer to the remaining body
reconstructs the original order exactly whenever the stream has no blank
(whitespace-only) lines; blanks met by the backward scan are discarded. -/
theorem footer_prefix_stable_amended (lines : List (Line Bool))
    (h : ∀ l ∈ lines, ¬ pyStrip l.1 = "") :
    (Main3.footerSplit lines).1 ++ (Main3.footerSplit lines).2 = lines := by
  unfold Main3.footerSplit
  have hrev : ∀ l ∈ lines.reverse, ¬ pyStrip l.1 = "" := fun l hl =>
    h l (List.mem_reverse.mp hl)
  rw [footerScan_reconstruct lines.reverse [] hrev]
  simp

theorem footer_prefix_stable_amended_witness :
    (∀ l ∈ [(("Amazing grace, how sweet the sound", false) : Line Bool),
        ("Words by John Newton, 1779", false)], ¬ pyStrip l.1 = "") ∧
    (Main3.footerSplit [(("Amazing grace, how sweet the sound", false) : Line Bool),
        ("Words by John Newton, 1779", false)]).1 ++
      (Main3.footerSplit [(("Amazing grace, how sweet the sound", false) : Line Bool),
        ("Words by John Newton, 1779", false)]).2 =
      [(("Amazing grace, how sweet the sound", false) : Line Bool),
        ("Words by John Newton, 1779", false)] :=
  ⟨by decide, footer_prefix_stable_amended _ (by decide)⟩

/-- C8 (confirmed): an unreadable document extracts to the empty line list
(the `except` branch — the embedded extractor is total, no fault escapes),
and a song whose extraction is empty leaves the deck untouched — its slide
side is neither cleared nor recomposed — while the remaining entries are
still processed. -/
theorem extraction_failure_leaves_side_unmodified :
    MainPy.extract_text_and_style none = [] ∧
    (∀ (d : MainPy.Deck) (e : MainPy.Entry) (rest : List MainPy.Entry),
        MainPy.extract_text_and_style e.doc = [] →
        MainPy.processAll d (e :: rest) = MainPy.processAll d rest) := by
  refine ⟨rfl, ?_⟩
  intro d e rest h
  have hok : MainPy.processEntry d e = .ok d := by
    unfold MainPy.processEntry
    rw [h]
    simp
  simp only [MainPy.processAll, hok]

theorem extraction_failure_leaves_side_unmodified_witness :
    MainPy.extract_text_and_style (MainPy.Entry.mk 0 .left "Because He Lives" none).doc = [] ∧
    MainPy.processAll [[⟨some 0, .other 3⟩]] [MainPy.Entry.mk 0 .left "Because He Lives" none] =
      MainPy.processAll [[⟨some 0, .other 3⟩]] [] :=
  ⟨rfl, extraction_failure_leaves_side_unmodified.2 _ _ _ rfl⟩

/-- C9 (counterexample): the substituted paragraph text is NOT padded to a
fixed total column width for every title — a long title gets the clamped
single-space padding (total width 66), while a short one reaches the fixed
width 59; the sequential substitution and the exhaustion rule do hold, and
the third marker paragraph is untouched. -/
theorem hymn_title_padding_not_fixed_width :
    Main3.update_order_of_service
        ["Christ Arose", "Sing Praise to God Who Reigns Above the God of All Creation"]
        [⟨true, 0, ["HYMN a", "HYMN b", "HYMN c"]⟩] =
      [⟨true, 0, [Main3.hymnParaText "Christ Arose",
        Main3.hymnParaText "Sing Praise to God Who Reigns Above the God of All Creation",
        "HYMN c"]⟩] ∧
    pyLen (Main3.hymnParaText "Christ Arose") = 59 ∧
    pyLen (Main3.hymnParaText "Sing Praise to God Who Reigns Above the God of All Creation")
      = 66 :=
  ⟨by decide, by decide, by decide⟩

/-- C9 (amended): the substitution walks the left-half text shapes in
collection (top-to-bottom) order, replaces each `HYMN`-prefixed paragraph
with the next unused title — quoted in typographic quotation marks with any
parenthesized subtitle removed, set after the marker with enough spaces to
reach total column width 59 when the quoted title is at most 54 characters
and a single space otherwise — and once the titles are exhausted leaves
every further marker paragraph untouched. -/
theorem hymn_title_substitution_amended (titles : List String) (shapes : List OShape) :
    Main3.update_order_of_service titles shapes = specUpdateOrderOfService titles shapes :=
  subShapes_eq_spec titles shapes 0

/-- C10 (confirmed): `last_line_info` is assigned only under `if lines:`
(main.py line 125) and read unconditionally (line 168), so the embedded
renderer errors exactly on an empty line list; with a non-empty list it
always succeeds, and since `generate_bulletin` composes only when
extraction produced lines, the whole pipeline never reaches the unassigned
read. -/
theorem last_line_info_always_defined :
    (∀ (title : String) (lines : List (Line (Option Bool))),
        lines ≠ [] → (MainPy.song_paras title lines).isOk = true) ∧
    (∀ (entries : List MainPy.Entry) (d : MainPy.Deck),
        (MainPy.processAll d entries).isOk = true) := by
  have hsp : ∀ (title : String) (lines : List (Line (Option Bool))),
      lines ≠ [] → (MainPy.song_paras title lines).isOk = true := by
    intro title lines hne
    cases lines with
    | nil => exact absurd rfl hne
    | cons l rest => rfl
  refine ⟨hsp, ?_⟩
  intro entries
  induction entries with
  | nil => intro d; rfl
  | cons e rest ih =>
    intro d
    have hE : ∃ d2, MainPy.processEntry d e = .ok d2 := by
      unfold MainPy.processEntry
      split_ifs with h1
      · exact ⟨d, rfl⟩
      · show ∃ d2,
          (if (MainPy.extract_text_and_style e.doc).isEmpty = true then Except.ok d
           else
             match MainPy.add_song_content e.side e.title (MainPy.extract_text_and_style e.doc)
                 (MainPy.clear_side e.side (d.getD e.slideIdx [])) with
             | Except.error u => Except.error u
             | Except.ok slide2 => Except.ok (d.set e.slideIdx slide2)) = .ok d2
        by_cases h2 : (MainPy.extract_text_and_style e.doc).isEmpty = true
        · rw [if_pos h2]; exact ⟨d, rfl⟩
        · rw [if_neg h2]
          have hne : MainPy.extract_text_and_style e.doc ≠ [] := by
            intro hnil
            rw [hnil] at h2
            exact h2 rfl
          obtain ⟨ps, hps⟩ : ∃ ps,
              MainPy.song_paras e.title (MainPy.extract_text_and_style e.doc) = .ok ps := by
            have hOk := hsp e.title _ hne
            cases hx : MainPy.song_paras e.title (MainPy.extract_text_and_style e.doc) with
            | error u => rw [hx] at hOk; simp [Except.isOk, Except.toBool] at hOk
            | ok ps => exact ⟨ps, rfl⟩
          unfold MainPy.add_song_content
          rw [hps]
          exact ⟨_, rfl⟩
    obtain ⟨d2, hd2⟩ := hE
    simp only [MainPy.processAll, hd2]
    exact ih d2

theorem last_line_info_always_defined_witness :
    ([(("He lives", none) : Line (Option Bool))] ≠ []) ∧
    (MainPy.song_paras "Because He Lives" [("He lives", none)]).isOk = true :=
  ⟨by decide,
    last_line_info_always_defined.1 "Because He Lives" [("He lives", none)] (by decide)⟩
